import Mathlib

/-!
Verification of the Signal Monitoring and Alert-Dispatch Engine of the
crypto-alert repository.  Python floats are modelled as exact rationals
(`ℚ`), Python `None` as `Option`, Python truthiness (`if x:`) explicitly
(`None` and `0.0` are falsy), and Python `int()` as truncation toward zero.
Sources: src/monitor_bybit_flask.py, src/crypto_alert_1m_1h.py,
src/monitor_service.py.
-/

namespace CryptoAlert

/-- Python `int(q)` on a float: truncation toward zero. -/
def pyInt (q : ℚ) : ℤ := if 0 ≤ q then ⌊q⌋ else ⌈q⌉

/-- Python `statistics.mean` on a nonempty list (0 on the empty list,
which every caller guards against). -/
def mean (l : List ℚ) : ℚ := l.sum / l.length

/-- Python truthiness of an optional float: `None` and `0.0` are falsy. -/
def optTruthy : Option ℚ → Bool
  | none => false
  | some q => decide (q ≠ 0)

/-- Maximum of a list the way Python `max` behaves on a nonempty list
(0 for the empty list, which callers guard against). -/
def listMax : List ℚ → ℚ
  | [] => 0
  | x :: xs => xs.foldl max x

/-- Minimum of a list the way Python `min` behaves on a nonempty list. -/
def listMin : List ℚ → ℚ
  | [] => 0
  | x :: xs => xs.foldl min x

/-- `compute_ema(prices, period)` of monitor_bybit_flask.py lines 123-130
(identical in crypto_alert_1m_1h.py lines 167-174): `None` when fewer than
2 samples, else the classic EMA seeded with the first element,
`ema = p * k + ema * (1 - k)` with `k = 2 / (period + 1)`. -/
def compute_ema (prices : List ℚ) (period : ℕ) : Option ℚ :=
  if prices.length < 2 then none
  else
    let k : ℚ := 2 / ((period : ℚ) + 1)
    match prices with
    | [] => none
    | p0 :: rest => some (rest.foldl (fun ema p => p * k + ema * (1 - k)) p0)

/-- Consecutive deltas `prices[i] - prices[i-1]` of compute_rsi
(monitor_bybit_flask.py lines 136-138). -/
def rsi_diffs (prices : List ℚ) : List ℚ :=
  List.zipWith (fun a b => b - a) prices prices.tail

/-- `avg_gain` of compute_rsi: `sum(gains[-period:]) / period`. -/
def rsi_avg_gain (prices : List ℚ) (period : ℕ) : ℚ :=
  let gains := (rsi_diffs prices).map (fun d => max d 0)
  (gains.drop (gains.length - period)).sum / (period : ℚ)

/-- `avg_loss` of compute_rsi: `sum(losses[-period:]) / period`. -/
def rsi_avg_loss (prices : List ℚ) (period : ℕ) : ℚ :=
  let losses := (rsi_diffs prices).map (fun d => max (-d) 0)
  (losses.drop (losses.length - period)).sum / (period : ℚ)

/-- `compute_rsi(prices, period)` of monitor_bybit_flask.py lines 132-143
(identical in crypto_alert_1m_1h.py lines 152-165): `None` when fewer than
`period + 1` samples, `100.0` when the average loss is zero, otherwise
`100 - 100 / (1 + rs)` with `rs = avg_gain / avg_loss`.  The embedding is
faithful for `period ≥ 1`; the Python source raises `ZeroDivisionError` at
`period = 0`, so all theorems assume `1 ≤ period`. -/
def compute_rsi (prices : List ℚ) (period : ℕ) : Option ℚ :=
  if prices.length < period + 1 then none
  else if rsi_avg_loss prices period = 0 then some 100
  else some (100 - 100 / (1 + rsi_avg_gain prices period / rsi_avg_loss prices period))

/-- `compute_macd(prices, fast, slow, signal)` of monitor_bybit_flask.py
lines 145-158: `(None, None)` when fewer than `slow` samples, else the
difference of the fast and slow EMAs, and a line obtained as the EMA of
the MACD value recomputed at each trailing prefix (prefix lengths `slow`
to `len(prices)`). -/
def compute_macd (prices : List ℚ) (fast slow sigPeriod : ℕ) : Option ℚ × Option ℚ :=
  if prices.length < slow then (none, none)
  else
    match compute_ema prices fast, compute_ema prices slow with
    | some ef, some es =>
      let macd := ef - es
      let macdSeries := (List.range (prices.length + 1 - slow)).filterMap (fun j =>
        let pfx := prices.take (slow + j)
        match compute_ema pfx fast, compute_ema pfx slow with
        | some a, some b => some (a - b)
        | _, _ => none)
      let sigLine := if sigPeriod ≤ macdSeries.length then compute_ema macdSeries sigPeriod else none
      (some macd, sigLine)
    | _, _ => (none, none)

/-- `breakout_score(closes, lookback)` of monitor_bybit_flask.py lines
187-197: compares the latest close with the max/min of the prior
`lookback` closes (excluding the latest); +20 above the high, -10 below
the low, 0 otherwise.  The numeric interpolation inside the reason
strings is elided. -/
def breakout_score (closes : List ℚ) (lookback : ℕ) : ℤ × Option String :=
  if closes.length < lookback + 1 then (0, none)
  else
    let recent := (closes.drop (closes.length - (lookback + 1))).take lookback
    let last := closes.getLastD 0
    let hi := listMax recent
    let lo := listMin recent
    if last > hi then (20, some "Breakout sopra max")
    else if last < lo then (-10, some "Rotto min")
    else (0, none)

/-- Default `VOLUME_SPIKE_MULTIPLIER` (monitor_bybit_flask.py line 32). -/
def VOLUME_SPIKE_MULTIPLIER : ℚ := 100

/-- The `vol_ratio` computed by `estimate_volatility_tier` of
monitor_bybit_flask.py lines 179-185: 1.0 unless at least 6 volumes exist,
else `volumes[-1] / mean(volumes[-6:-1])` when that baseline is truthy
(nonzero).  The volatility-tier half of the function (log-returns standard
deviation) is discarded by `score_signals` (`_, vol_ratio = ...`) and is
not modelled. -/
def estimate_vol_ratio (volumes : List ℚ) : ℚ :=
  if volumes ≠ [] ∧ 6 ≤ volumes.length then
    let baseline := mean ((volumes.drop (volumes.length - 6)).take 5)
    if baseline ≠ 0 then volumes.getLastD 0 / baseline else 1
  else 1

/-- `detect_volume_spike(volumes, multiplier)` of monitor_bybit_flask.py
lines 199-207: `(False, 1.0)` when fewer than 6 samples or the baseline
`mean(volumes[-6:-1])` is ≤ 0, else `(ratio ≥ multiplier, ratio)` with
`ratio = volumes[-1] / baseline`. -/
def detect_volume_spike (volumes : List ℚ) (multiplier : ℚ) : Bool × ℚ :=
  if volumes = [] ∨ volumes.length < 6 then (false, 1)
  else
    let avg_prev := mean ((volumes.drop (volumes.length - 6)).take 5)
    let last := volumes.getLastD 0
    if avg_prev ≤ 0 then (false, 1)
    else (decide (last / avg_prev ≥ multiplier), last / avg_prev)

/-- The raw additive composite of `score_signals` (monitor_bybit_flask.py
lines 209-244) before clamping: EMA10/EMA30 relative gap, MACD vs its
line, RSI(14), breakout score, capped asymmetric variation weighting, and
the volume-ratio bonus.  Python truthiness (`if ema10 and ema30:`,
`if vol_ratio and ...`) is modelled explicitly; the numeric interpolation
inside reason strings is elided. -/
def score_raw (prices volumes : List ℚ) (variation : ℚ) : ℚ × List String :=
  let s0 : ℚ := 0
  let r0 : List String := []
  let ema10 := compute_ema prices 10
  let ema30 := compute_ema prices 30
  let (s1, r1) :=
    if optTruthy ema10 && optTruthy ema30 then
      let e10 := ema10.getD 0
      let e30 := ema30.getD 0
      let diff_pct := if e30 ≠ 0 then ((e10 - e30) / e30) * 100 else 0
      if diff_pct > 0.8 then (s0 + 20, r0 ++ ["EMA10>EMA30"])
      else if diff_pct < -0.8 then (s0 - 15, r0 ++ ["EMA10<EMA30"])
      else (s0, r0)
    else (s0, r0)
  let mres := compute_macd prices 12 26 9
  let (s2, r2) :=
    match mres.1, mres.2 with
    | some m, some sg =>
      if m > sg then (s1 + 15, r1 ++ ["MACD bullish"])
      else (s1 - 7, r1 ++ ["MACD bearish"])
    | _, _ => (s1, r1)
  let (s3, r3) :=
    match compute_rsi prices 14 with
    | some rv =>
      if rv < 35 then (s2 + 10, r2 ++ ["RSI oversold"])
      else if rv > 70 then (s2 - 15, r2 ++ ["RSI overbought"])
      else (s2, r2)
    | none => (s2, r2)
  let bres := breakout_score prices 20
  let s4 := s3 + (bres.1 : ℚ)
  let r4 := match bres.2 with
    | some rr => r3 ++ [rr]
    | none => r3
  let mag := min 25 |variation|
  let s5 := if variation > 0 then s4 + mag * 0.6 else s4 - mag * 0.4
  let vr := estimate_vol_ratio volumes
  if vr ≠ 0 ∧ vr ≥ VOLUME_SPIKE_MULTIPLIER then (s5 + 25, r4 ++ ["Vol spike"])
  else if vr ≠ 0 ∧ vr ≥ 5 then (s5 + 5, r4 ++ ["Vol ratio"])
  else (s5, r4)

/-- `score_signals(prices, volumes, variation, tf)` of
monitor_bybit_flask.py lines 209-247: the raw composite is clamped to
[-100, 100] and remapped via `int((raw + 100) / 2)`; the `tf` argument is
unused by the source body. -/
def score_signals (prices volumes : List ℚ) (variation : ℚ) (tf : String) : ℤ × List String :=
  let sr := score_raw prices volumes variation
  let raw := max (-100) (min 100 sr.1)
  (pyInt ((raw + 100) / 2), sr.2)

/-- Default `COOLDOWN_SECONDS` (monitor_bybit_flask.py line 30). -/
def COOLDOWN_SECONDS : ℚ := 7200

/-- Default `CHECK_INTERVAL` (crypto_alert_1m_1h.py line 34). -/
def CHECK_INTERVAL : ℚ := 60

/-- Outcome of one HTTP post attempt inside a Telegram helper: success, an
HTTP error status (logged), or a raised exception (caught and logged). -/
inductive PostResult
  | ok : PostResult
  | httpError : ℤ → PostResult
  | exn : PostResult
deriving DecidableEq, Repr

/-- `send_telegram_text` of monitor_bybit_flask.py lines 65-77: every post
outcome, including an HTTP error or an exception, is caught and turned
into a log line; the function always returns (failure is never propagated
to the caller).  Message contents are elided. -/
def send_telegram_text (configured : Bool) (chatResults : List PostResult) : List String :=
  if !configured then ["telegram not configured"]
  else chatResults.map (fun r =>
    match r with
    | .ok => "sent"
    | .httpError _ => "telegram error logged"
    | .exn => "telegram exception logged")

/-- One cooldown-gated alert decision of `monitor_loop`
(monitor_bybit_flask.py lines 436-456) for a single `(symbol, timeframe)`
key: `alert_price_move or alert_volume` fires iff the time since the
stored `last_alert_time` entry (default 0) is at least `COOLDOWN_SECONDS`;
on fire the stored timestamp becomes `now_ts`.  Returns (fired?, new
stored timestamp). -/
def flaskAlertStep (C : ℚ) (priceMove alertVolume : Bool) (lastTs nowTs : ℚ) : Bool × ℚ :=
  if (priceMove || alertVolume) && decide (nowTs - lastTs ≥ C) then (true, nowTs)
  else (false, lastTs)

/-- Iterated evaluations of `flaskAlertStep` for one `(symbol, timeframe)`
key: each element of the list is `(alert_price_move, alert_volume,
now_ts)`; returns the times at which an alert fired. -/
def flaskRun (C : ℚ) : ℚ → List (Bool × Bool × ℚ) → List ℚ
  | _, [] => []
  | lastTs, e :: es =>
    if (flaskAlertStep C e.1 e.2.1 lastTs e.2.2).1 then
      e.2.2 :: flaskRun C (flaskAlertStep C e.1 e.2.1 lastTs e.2.2).2 es
    else flaskRun C (flaskAlertStep C e.1 e.2.1 lastTs e.2.2).2 es

/-- The per-type cooldown test of `check_changes`
(crypto_alert_1m_1h.py lines 434-461): `if not last_t or now - last_t > C`
— Python truthiness makes both a missing entry and a stored `0.0` pass. -/
def coolFire (C : ℚ) (last : Option ℚ) (now : ℚ) : Bool :=
  !optTruthy last || decide (now - last.getD 0 > C)

/-- Iterated evaluations of one per-(symbol, alertType) cooldown entry of
`check_changes`: each element is `(condition holds, time)`; a fire stores
its time into the entry. -/
def coolRun (C : ℚ) : Option ℚ → List (Bool × ℚ) → List ℚ
  | _, [] => []
  | last, e :: es =>
    if e.1 && coolFire C last e.2 then e.2 :: coolRun C (some e.2) es
    else coolRun C last es

/-- The `last_alerts[symbol]` record of crypto_alert_1m_1h.py: last-fired
timestamp per alert type (the `price_*` entries are pending-alert markers
set by the ticker pass and popped when sent). -/
structure LastAlerts where
  price_1m : Option ℚ
  price_2m : Option ℚ
  vol_spike : Option ℚ
  rsi_high : Option ℚ
  rsi_low : Option ℚ
  breakout : Option ℚ
  ema_up : Option ℚ
  ema_down : Option ℚ
deriving DecidableEq, Repr

/-- The alert-selection block of `check_changes` (crypto_alert_1m_1h.py
lines 424-461): pending price markers within `3 * CHECK_INTERVAL` are
sent and popped; `vol_spike`, `rsi_high`/`rsi_low`, `breakout` and
`ema_up`/`ema_down` each consult and update their own cooldown entry
(factors 5, 10, 5 and 15 of `CHECK_INTERVAL`).  `emaRelation` is
`some true` for "above", `some false` for "below".  Returns the ordered
list of alert types chosen for sending and the updated record. -/
def chooseAlerts (now : ℚ) (st : LastAlerts) (volSpike : Bool) (rsi : Option ℚ)
    (breakoutFlag : Bool) (breakoutUpper : Bool) (emaRelation : Option Bool) :
    List String × LastAlerts :=
  let acc : List String := []
  let recent_threshold := CHECK_INTERVAL * 3
  let (acc, st) :=
    if optTruthy st.price_1m && decide (now - st.price_1m.getD 0 ≤ recent_threshold) then
      (acc ++ ["price_1m"], { st with price_1m := none })
    else (acc, st)
  let (acc, st) :=
    if optTruthy st.price_2m && decide (now - st.price_2m.getD 0 ≤ recent_threshold) then
      (acc ++ ["price_2m"], { st with price_2m := none })
    else (acc, st)
  let (acc, st) :=
    if volSpike then
      if coolFire (CHECK_INTERVAL * 5) st.vol_spike now then
        (acc ++ ["vol_spike"], { st with vol_spike := some now })
      else (acc, st)
    else (acc, st)
  let (acc, st) :=
    match rsi with
    | none => (acc, st)
    | some rv =>
      if rv ≥ 70 then
        if coolFire (CHECK_INTERVAL * 10) st.rsi_high now then
          (acc ++ ["rsi_high"], { st with rsi_high := some now })
        else (acc, st)
      else if rv ≤ 30 then
        if coolFire (CHECK_INTERVAL * 10) st.rsi_low now then
          (acc ++ ["rsi_low"], { st with rsi_low := some now })
        else (acc, st)
      else (acc, st)
  let (acc, st) :=
    if breakoutFlag then
      if coolFire (CHECK_INTERVAL * 5) st.breakout now then
        (acc ++ [if breakoutUpper then "breakout_upper" else "breakout_lower"],
         { st with breakout := some now })
      else (acc, st)
    else (acc, st)
  let (acc, st) :=
    match emaRelation with
    | some true =>
      if coolFire (CHECK_INTERVAL * 15) st.ema_up now then
        (acc ++ ["ema_up"], { st with ema_up := some now })
      else (acc, st)
    | some false =>
      if coolFire (CHECK_INTERVAL * 15) st.ema_down now then
        (acc ++ ["ema_down"], { st with ema_down := some now })
      else (acc, st)
    | none => (acc, st)
  (acc, st)

/-- `analyze_symbol_tf` of monitor_service.py lines 126-151 with the
external price fetch factored out: the prior is
`previous_prices.get(key, price)`, the variation is 0 when the prior is 0,
the memory is updated to the current price before alerting, and an alert
is sent iff `abs(pct) ≥ threshold`.  Returns (alert sent?, new stored
price, variation pct). -/
def analyze_symbol_tf (threshold : ℚ) (prev : Option ℚ) (price : ℚ) : Bool × ℚ × ℚ :=
  let old := prev.getD price
  let pct := if old = 0 then 0 else ((price - old) / old) * 100
  (decide (|pct| ≥ threshold), price, pct)

/-- The per-(symbol, timeframe) body of `monitor_loop`
(monitor_bybit_flask.py lines 421-441) with the external fetch and
volume-spike flag factored out: on the first cycle or when the key is
unseen the baseline is seeded and the iteration continues without any
alert evaluation; otherwise the variation against the stored baseline
feeds the shared cooldown gate. -/
def flaskCycleFires (C : ℚ) (first : Bool) (stored : Option ℚ) (price threshold : ℚ)
    (alertVolume : Bool) (lastTs nowTs : ℚ) : Bool :=
  if first || stored.isNone then false
  else
    let prev := stored.getD price
    let variation := if prev = 0 then 0 else ((price - prev) / prev) * 100
    (flaskAlertStep C (decide (|variation| ≥ threshold)) alertVolume lastTs nowTs).1

/-- The fire path of `monitor_loop` (monitor_bybit_flask.py lines
439-456): when the cooldown gate passes, the alert text is handed to
`send_telegram_text` (whose outcome per chat id is `chatResults`) and the
cooldown timestamp is then set to `now_ts` unconditionally.  Returns
(fired?, new timestamp, dispatch log). -/
def monitor_fire_and_update (C : ℚ) (priceMove alertVolume : Bool) (lastTs nowTs : ℚ)
    (configured : Bool) (chatResults : List PostResult) : Bool × ℚ × List String :=
  if (priceMove || alertVolume) && decide (nowTs - lastTs ≥ C) then
    (true, nowTs, send_telegram_text configured chatResults)
  else (false, lastTs, [])

/-- The rolling-volume candidate pre-filter of `check_changes`
(crypto_alert_1m_1h.py lines 360-369): the ticker volume is appended to
the rolling window (capacity 100, oldest evicted), the baseline is the
mean of the updated window, and the symbol becomes a candidate when
`baseline > 0` and `ticker_vol / baseline ≥ VOLUME_SPIKE_FACTOR`.
Returns (new window, baseline, candidate?). -/
def rolling_vol_update (rolling : List ℚ) (ticker_vol : ℚ) : List ℚ × ℚ × Bool :=
  let rolling1 := rolling ++ [ticker_vol]
  let rolling2 := if rolling1.length > 100 then rolling1.drop 1 else rolling1
  let baseline := if rolling2 ≠ [] then mean rolling2 else ticker_vol
  (rolling2, baseline, decide (baseline > 0) && decide (ticker_vol / baseline ≥ 3 / 2))

/-- Default `REPORT_SCORE_MIN` (monitor_bybit_flask.py line 40). -/
def REPORT_SCORE_MIN : ℤ := 70

/-- Default `REPORT_MAX_ITEMS` (monitor_bybit_flask.py line 39). -/
def REPORT_MAX_ITEMS : ℕ := 10

/-- One candidate entry of `build_and_send_wyckoff_report`
(monitor_bybit_flask.py lines 340-344); the display-only fields (price,
variation, phase, reasons, tier, candles) are elided, the ranking uses
only the score. -/
structure ReportItem where
  symbol : String
  score : ℤ
deriving DecidableEq, Repr

/-- Ordering used by `sorted(items, key=lambda x: x["score"], reverse=True)`:
descending by score, stable for equal scores. -/
def scoreGE (a b : ReportItem) : Prop := b.score ≤ a.score

instance : DecidableRel scoreGE := fun a b => inferInstanceAs (Decidable (b.score ≤ a.score))

instance : IsTotal ReportItem scoreGE := ⟨fun a b => le_total b.score a.score⟩

instance : IsTrans ReportItem scoreGE := ⟨fun _ _ _ h1 h2 => le_trans h2 h1⟩

/-- The ranking pipeline of `build_and_send_wyckoff_report`
(monitor_bybit_flask.py lines 326-345) with the candle fetch and scoring
factored out: keep candidates with `score ≥ minScore`, sort descending by
score (Python `sorted` is stable), truncate to `maxItems`. -/
def build_report_items (cands : List ReportItem) (minScore : ℤ) (maxItems : ℕ) : List ReportItem :=
  (List.insertionSort scoreGE (cands.filter (fun it => decide (minScore ≤ it.score)))).take maxItems

/-- A dispatched notification: a plain text message or a photo with a
caption. -/
inductive Msg
  | text : String → Msg
  | photo : String → Msg
deriving DecidableEq, Repr

/-- The dispatch sequence of `build_and_send_wyckoff_report`
(monitor_bybit_flask.py lines 346-391): nothing when no item survived the
filter; otherwise one bulk text summary, then for each item one
photo (when charts are enabled and chart generation succeeds) or one text
caption.  Message contents are elided to the item symbol. -/
def report_dispatch (items : List ReportItem) (enableCharts : Bool)
    (chartOk : ReportItem → Bool) : List Msg :=
  if items = [] then []
  else
    Msg.text "summary" :: items.map (fun it =>
      if enableCharts && chartOk it then Msg.photo it.symbol else Msg.text it.symbol)

/-- C1: for every close-price sequence, volume sequence, variation
percentage and timeframe label, the score returned by `score_signals`
lies in [0, 100], and it equals the truncated affine remap
`(raw + 100) / 2` of the raw additive composite after that composite has
been clamped to [-100, 100]. -/
theorem score_signals_in_range (prices volumes : List ℚ) (variation : ℚ) (tf : String) :
    0 ≤ (score_signals prices volumes variation tf).1 ∧
    (score_signals prices volumes variation tf).1 ≤ 100 ∧
    (score_signals prices volumes variation tf).1 =
      pyInt ((max (-100) (min 100 (score_raw prices volumes variation).1) + 100) / 2) := by
  have hmain : ∀ s : ℚ, 0 ≤ pyInt ((max (-100) (min 100 s) + 100) / 2) ∧
      pyInt ((max (-100) (min 100 s) + 100) / 2) ≤ 100 := by
    intro s
    set raw := max (-100) (min 100 s) with hraw
    have hr1 : (-100 : ℚ) ≤ raw := le_max_left _ _
    have hr2 : raw ≤ 100 := max_le (by norm_num) (min_le_left _ _)
    have hq0 : (0 : ℚ) ≤ (raw + 100) / 2 := by linarith [div_nonneg (by linarith : (0:ℚ) ≤ raw + 100) (by norm_num : (0:ℚ) ≤ 2)]
    have hq1 : (raw + 100) / 2 ≤ 100 := by
      rw [div_le_iff (by norm_num : (0:ℚ) < 2)]; linarith
    have hpy : pyInt ((raw + 100) / 2) = ⌊(raw + 100) / 2⌋ := if_pos hq0
    constructor
    · rw [hpy]
      exact Int.le_floor.mpr (by exact_mod_cast hq0)
    · rw [hpy]
      have hfl : (↑⌊(raw + 100) / 2⌋ : ℚ) ≤ 100 := le_trans (Int.floor_le _) hq1
      exact_mod_cast hfl
  exact ⟨(hmain _).1, (hmain _).2, rfl⟩

/-- Both averages inside `compute_rsi` are nonnegative: they are sums of
clamped-at-zero deltas divided by the period. -/
theorem rsi_avg_nonneg (prices : List ℚ) (period : ℕ) :
    0 ≤ rsi_avg_gain prices period ∧ 0 ≤ rsi_avg_loss prices period := by
  constructor
  · apply div_nonneg _ (by positivity)
    apply List.sum_nonneg
    intro x hx
    have hx' := List.mem_of_mem_drop hx
    obtain ⟨d, _, rfl⟩ := List.mem_map.mp hx'
    exact le_max_right _ _
  · apply div_nonneg _ (by positivity)
    apply List.sum_nonneg
    intro x hx
    have hx' := List.mem_of_mem_drop hx
    obtain ⟨d, _, rfl⟩ := List.mem_map.mp hx'
    exact le_max_right _ _

/-- C8: for every price sequence of length < period+1, `compute_rsi`
returns `None`; for every sequence of length ≥ period+1 it returns a
value in [0, 100], and it returns exactly 100 when the average loss is
zero, so no division by zero occurs.  (The source raises at period = 0;
the period is assumed ≥ 1, which every caller satisfies.) -/
theorem compute_rsi_spec (prices : List ℚ) (period : ℕ) (hp : 1 ≤ period) :
    (prices.length < period + 1 → compute_rsi prices period = none) ∧
    (period + 1 ≤ prices.length →
      ∃ r, compute_rsi prices period = some r ∧ 0 ≤ r ∧ r ≤ 100 ∧
        (rsi_avg_loss prices period = 0 → r = 100)) := by
  constructor
  · intro hshort
    exact if_pos hshort
  · intro hlong
    have hnlt : ¬ prices.length < period + 1 := not_lt.mpr hlong
    by_cases hz : rsi_avg_loss prices period = 0
    · refine ⟨100, ?_, by norm_num, le_refl _, fun _ => rfl⟩
      simp [compute_rsi, hnlt, hz]
    · have hL0 : 0 ≤ rsi_avg_loss prices period := (rsi_avg_nonneg prices period).2
      have hG0 : 0 ≤ rsi_avg_gain prices period := (rsi_avg_nonneg prices period).1
      have hLpos : 0 < rsi_avg_loss prices period := lt_of_le_of_ne hL0 (Ne.symm hz)
      set rs := rsi_avg_gain prices period / rsi_avg_loss prices period with hrs
      have hrs0 : 0 ≤ rs := div_nonneg hG0 hL0
      have hden : (1 : ℚ) ≤ 1 + rs := by linarith
      have hfrac_le : 100 / (1 + rs) ≤ 100 := div_le_self (by norm_num) hden
      have hfrac_pos : 0 < 100 / (1 + rs) := div_pos (by norm_num) (by linarith)
      refine ⟨100 - 100 / (1 + rs), ?_, by linarith, by linarith, fun h => absurd h hz⟩
      simp [compute_rsi, hnlt, hz]

/-- Witness for `compute_rsi_spec`: a 3-sample series is too short for
period 14; a 2-sample rising series at period 1 has zero average loss. -/
theorem compute_rsi_spec_witness :
    compute_rsi [(1 : ℚ), 2, 3] 14 = none ∧ compute_rsi [(1 : ℚ), 2] 1 = some 100 := by
  constructor
  · exact (compute_rsi_spec [(1 : ℚ), 2, 3] 14 (by norm_num)).1 (by norm_num)
  · obtain ⟨r, hr, -, -, h100⟩ := (compute_rsi_spec [(1 : ℚ), 2] 1 (by norm_num)).2 (by norm_num)
    rw [hr, h100 (by norm_num [rsi_avg_loss, rsi_diffs])]

/-- The EMA fold keeps its accumulator inside any interval containing the
accumulator and all list elements, for a smoothing factor in [0, 1]. -/
theorem ema_foldl_bounds (k lb ub : ℚ) (hk0 : 0 ≤ k) (hk1 : k ≤ 1) :
    ∀ (l : List ℚ) (acc : ℚ), lb ≤ acc → acc ≤ ub →
      (∀ x ∈ l, lb ≤ x ∧ x ≤ ub) →
      lb ≤ l.foldl (fun ema p => p * k + ema * (1 - k)) acc ∧
        l.foldl (fun ema p => p * k + ema * (1 - k)) acc ≤ ub := by
  intro l
  induction l with
  | nil => intro acc h1 h2 _; exact ⟨h1, h2⟩
  | cons p tl ih =>
    intro acc h1 h2 h3
    have hp := h3 p (List.mem_cons_self _ _)
    have e1 : lb * k ≤ p * k := mul_le_mul_of_nonneg_right hp.1 hk0
    have e2 : lb * (1 - k) ≤ acc * (1 - k) := mul_le_mul_of_nonneg_right h1 (by linarith)
    have e3 : p * k ≤ ub * k := mul_le_mul_of_nonneg_right hp.2 hk0
    have e4 : acc * (1 - k) ≤ ub * (1 - k) := mul_le_mul_of_nonneg_right h2 (by linarith)
    rw [List.foldl_cons]
    exact ih (p * k + acc * (1 - k)) (by nlinarith) (by nlinarith)
      (fun x hx => h3 x (List.mem_cons_of_mem _ hx))

/-- The EMA fold is the identity on a constant series. -/
theorem ema_foldl_const (k c : ℚ) : ∀ (m : ℕ),
    (List.replicate m c).foldl (fun ema p => p * k + ema * (1 - k)) c = c := by
  intro m
  induction m with
  | zero => rfl
  | succ m ih =>
    rw [List.replicate_succ, List.foldl_cons]
    have hc : c * k + c * (1 - k) = c := by ring
    rw [hc]
    exact ih

/-- C10: for every price sequence with at least 2 elements and every
period ≥ 1, `compute_ema` returns a value inside any interval containing
the whole sequence — in particular inside [min, max] — and the EMA of a
constant sequence equals that constant. -/
theorem compute_ema_in_range (prices : List ℚ) (period : ℕ) (lb ub c : ℚ) (n : ℕ)
    (h2 : 2 ≤ prices.length) (hp : 1 ≤ period) (hn : 2 ≤ n)
    (hlb : ∀ x ∈ prices, lb ≤ x) (hub : ∀ x ∈ prices, x ≤ ub) :
    (∃ e, compute_ema prices period = some e ∧ lb ≤ e ∧ e ≤ ub) ∧
    compute_ema (List.replicate n c) period = some c := by
  have hk0 : (0 : ℚ) ≤ 2 / ((period : ℚ) + 1) := by positivity
  have hk1 : 2 / ((period : ℚ) + 1) ≤ 1 := by
    rw [div_le_one (by positivity)]
    have : (1 : ℚ) ≤ (period : ℚ) := by exact_mod_cast hp
    linarith
  constructor
  · match prices, h2 with
    | p0 :: p1 :: rest, _ =>
      have hnlt : ¬ (p0 :: p1 :: rest).length < 2 := by simp
      refine ⟨(p1 :: rest).foldl
        (fun ema p => p * (2 / ((period : ℚ) + 1)) + ema * (1 - 2 / ((period : ℚ) + 1))) p0,
        by simp [compute_ema, hnlt], ?_⟩
      exact ema_foldl_bounds _ lb ub hk0 hk1 (p1 :: rest) p0
        (hlb p0 (List.mem_cons_self _ _)) (hub p0 (List.mem_cons_self _ _))
        (fun x hx => ⟨hlb x (List.mem_cons_of_mem _ hx), hub x (List.mem_cons_of_mem _ hx)⟩)
  · obtain ⟨m, rfl⟩ : ∃ m, n = m + 2 := ⟨n - 2, by omega⟩
    have hnlt : ¬ (List.replicate (m + 2) c).length < 2 := by simp
    rw [List.replicate_succ]
    simp only [compute_ema, List.replicate_succ] at hnlt ⊢
    rw [if_neg (by simpa using hnlt)]
    exact congrArg some (ema_foldl_const _ c (m + 1))

/-- Witness for `compute_ema_in_range`: EMA of [1, 3] at period 2 lies in
[1, 3]; EMA of a constant pair equals the constant. -/
theorem compute_ema_in_range_witness :
    (∃ e, compute_ema [(1 : ℚ), 3] 2 = some e ∧ 1 ≤ e ∧ e ≤ 3) ∧
    compute_ema (List.replicate 2 (5 : ℚ)) 2 = some 5 :=
  compute_ema_in_range [(1 : ℚ), 3] 2 1 3 5 2 (by norm_num) (by norm_num) (by norm_num)
    (by decide) (by decide)

/-- C2: once an alert fires at time t0 for a (symbol, alertType) with
configured cooldown C, no alert of that type fires at any evaluation
inside the open window (t0, t0 + C) even when the condition is true at
every cycle — both for the shared-key gate of `monitor_loop`
(monitor_bybit_flask.py, `≥ C` test) and for the per-type entries of
`check_changes` (crypto_alert_1m_1h.py, strict `> C` test) — and a fire
stores the fire time, restarting the window. -/
theorem cooldown_no_refire_within_window (C t0 : ℚ)
    (evs : List (Bool × Bool × ℚ)) (evs2 : List (Bool × ℚ))
    (h1 : ∀ e ∈ evs, t0 < e.2.2 ∧ e.2.2 < t0 + C)
    (h2 : ∀ e ∈ evs2, t0 < e.2 ∧ e.2 < t0 + C) (ht0 : 0 < t0) :
    flaskRun C t0 evs = [] ∧ coolRun C (some t0) evs2 = [] ∧
    (∀ pm va lastTs now, (flaskAlertStep C pm va lastTs now).1 = true →
      (flaskAlertStep C pm va lastTs now).2 = now) := by
  refine ⟨?_, ?_, ?_⟩
  · induction evs with
    | nil => rfl
    | cons e es ih =>
      have he := h1 e (List.mem_cons_self _ _)
      have hlt : ¬ (e.2.2 - t0 ≥ C) := by
        intro hc
        linarith [he.2]
      have hstep : flaskAlertStep C e.1 e.2.1 t0 e.2.2 = (false, t0) := by
        simp [flaskAlertStep, hlt]
      simp only [flaskRun, hstep]
      simpa using ih (fun e' he' => h1 e' (List.mem_cons_of_mem _ he'))
  · induction evs2 with
    | nil => rfl
    | cons e es ih =>
      have he := h2 e (List.mem_cons_self _ _)
      have hne : t0 ≠ 0 := ne_of_gt ht0
      have hngt : ¬ (e.2 - t0 > C) := by
        intro hc
        linarith [he.2]
      have hcf : coolFire C (some t0) e.2 = false := by
        simp [coolFire, optTruthy, hne, hngt]
      simp only [coolRun, hcf, Bool.and_false]
      simpa using ih (fun e' he' => h2 e' (List.mem_cons_of_mem _ he'))
  · intro pm va lastTs now hf
    by_cases hcond : ((pm || va) && decide (now - lastTs ≥ C)) = true
    · simp [flaskAlertStep, hcond]
    · exfalso
      simp [flaskAlertStep, hcond] at hf

/-- Witness for `cooldown_no_refire_within_window`: a fire at t0 = 100
with the default 7200 s cooldown suppresses condition-true evaluations at
101, 7000 (flask gate) and 200 (per-type entry). -/
theorem cooldown_no_refire_within_window_witness :
    flaskRun COOLDOWN_SECONDS 100 [(true, true, 101), (true, false, 7000)] = [] ∧
    coolRun COOLDOWN_SECONDS (some 100) [(true, 200)] = [] := by
  have h := cooldown_no_refire_within_window COOLDOWN_SECONDS 100
    [(true, true, 101), (true, false, 7000)] [(true, 200)]
    (by intro e he; fin_cases he <;> norm_num [COOLDOWN_SECONDS])
    (by intro e he; fin_cases he <;> norm_num [COOLDOWN_SECONDS])
    (by norm_num)
  exact ⟨h.1, h.2.1⟩

/-- C3 counterexample: in `monitor_loop` the cooldown entry is keyed by
(symbol, timeframe) and shared by the price-move and volume-spike
conditions: after a price-move-only fire at time 1000000, a volume-spike
condition true one second later is suppressed (only one fire in the run),
so a recent fire of one alert type does suppress a different alert type. -/
theorem cooldown_shared_key_cex :
    flaskRun COOLDOWN_SECONDS 0 [(true, false, 1000000), (false, true, 1000001)] = [1000000] ∧
    (flaskAlertStep COOLDOWN_SECONDS false true 1000000 1000001).1 = false := by
  constructor
  · norm_num [flaskRun, flaskAlertStep, COOLDOWN_SECONDS]
  · norm_num [flaskAlertStep, COOLDOWN_SECONDS]

/-- C3 amended: only `check_changes` (crypto_alert_1m_1h.py) keys
cooldown state per (symbol, alertType): there a cooling `vol_spike` entry
does not suppress an eligible `rsi_high`, and two eligible types fire in
the same cycle; in `monitor_loop` (monitor_bybit_flask.py) the price-move
and volume-spike conditions share one (symbol, timeframe) cooldown entry,
so inside the shared window nothing fires even with both conditions true. -/
theorem cooldown_keying_amended (st : LastAlerts) (now t0 rv lastTs n2 : ℚ)
    (hp1 : st.price_1m = none) (hp2 : st.price_2m = none)
    (h1 : st.rsi_high = none) (h2 : st.vol_spike = some t0) (h3 : 0 < t0)
    (h4 : rv ≥ 70) (h5 : now - t0 ≤ CHECK_INTERVAL * 5)
    (h6 : n2 - lastTs < COOLDOWN_SECONDS) :
    (chooseAlerts now st true (some rv) false true none).1 = ["rsi_high"] ∧
    (chooseAlerts now ⟨none, none, none, none, none, none, none, none⟩ true (some rv)
      false true none).1 = ["vol_spike", "rsi_high"] ∧
    (flaskAlertStep COOLDOWN_SECONDS true true lastTs n2).1 = false := by
  have ht0ne : t0 ≠ 0 := ne_of_gt h3
  have hno : ¬ (now - t0 > CHECK_INTERVAL * 5) := not_lt.mpr h5
  have hn6 : ¬ (n2 - lastTs ≥ COOLDOWN_SECONDS) := not_le.mpr h6
  refine ⟨?_, ?_, ?_⟩
  · simp [chooseAlerts, coolFire, optTruthy, hp1, hp2, h1, h2, ht0ne, hno, h4]
  · simp [chooseAlerts, coolFire, optTruthy, h4]
  · simp [flaskAlertStep, hn6]

/-- Witness for `cooldown_keying_amended` at concrete inputs: vol_spike
fired at 100, evaluation at 150 with RSI 75. -/
theorem cooldown_keying_amended_witness :
    (chooseAlerts 150 ⟨none, none, some 100, none, none, none, none, none⟩ true (some 75)
      false true none).1 = ["rsi_high"] ∧
    (chooseAlerts 150 ⟨none, none, none, none, none, none, none, none⟩ true (some 75)
      false true none).1 = ["vol_spike", "rsi_high"] ∧
    (flaskAlertStep COOLDOWN_SECONDS true true 0 1).1 = false :=
  cooldown_keying_amended ⟨none, none, some 100, none, none, none, none, none⟩ 150 100 75 0 1
    rfl rfl rfl rfl (by norm_num) (by norm_num) (by norm_num [CHECK_INTERVAL])
    (by norm_num [COOLDOWN_SECONDS])

/-- C4 counterexample: with a configured threshold of 0, the first-ever
observation in `analyze_symbol_tf` (monitor_service.py) computes a 0%
variation and still fires (`abs(0.0) >= 0` holds), so the first
observation does not suppress alerting for every configured threshold. -/
theorem first_observation_zero_threshold_cex :
    analyze_symbol_tf 0 none 100 = (true, 100, 0) := by
  norm_num [analyze_symbol_tf]

/-- C4 amended: the first-ever observation of a (symbol, timeframe) seeds
the baseline with the current price and yields a 0% variation; it fires
no alert whenever the configured threshold is positive
(`analyze_symbol_tf` of monitor_service.py), and in `monitor_loop` of
monitor_bybit_flask.py the first observation is skipped outright, firing
no alert for any threshold. -/
theorem first_observation_no_alert (threshold price thr2 C lastTs nowTs : ℚ)
    (first : Bool) (stored : Option ℚ) (volA : Bool)
    (hpos : 0 < threshold) (hseed : first = true ∨ stored = none) :
    (analyze_symbol_tf threshold none price).1 = false ∧
    (analyze_symbol_tf threshold none price).2.1 = price ∧
    (analyze_symbol_tf threshold none price).2.2 = 0 ∧
    flaskCycleFires C first stored price thr2 volA lastTs nowTs = false := by
  have hpct : (if price = 0 then (0 : ℚ) else ((price - price) / price) * 100) = 0 := by
    by_cases hz : price = 0 <;> simp [hz]
  have hnot : ¬ (|(0 : ℚ)| ≥ threshold) := by
    rw [abs_zero]
    exact not_le.mpr hpos
  refine ⟨?_, rfl, ?_, ?_⟩
  · simp only [analyze_symbol_tf, Option.getD_none, hpct]
    simpa using hnot
  · simp only [analyze_symbol_tf, Option.getD_none, hpct]
  · rcases hseed with hf | hs
    · simp [flaskCycleFires, hf]
    · simp [flaskCycleFires, hs]

/-- Witness for `first_observation_no_alert`: first observation of price
100 at threshold 5 seeds silently; the flask loop's first cycle fires no
alert even at threshold 0. -/
theorem first_observation_no_alert_witness :
    (analyze_symbol_tf 5 none 100).1 = false ∧
    flaskCycleFires COOLDOWN_SECONDS true none 100 0 true 0 999999 = false := by
  have h := first_observation_no_alert 5 100 0 COOLDOWN_SECONDS 0 999999 true none true
    (by norm_num) (Or.inl rfl)
  exact ⟨h.1, h.2.2.2⟩

/-- C9: when the decision logic fires, the cooldown timestamp for the
(symbol, alertType) key is set to the fire time no matter what
`send_telegram_text` returned for each chat (failures are caught inside
it and never propagate), and a later condition-true evaluation inside the
cooldown window does not fire again — at-most-once semantics with no
retry of the failed instant. -/
theorem dispatch_failure_keeps_cooldown (C : ℚ) (pm va pm2 va2 : Bool)
    (lastTs t0 t : ℚ) (configured : Bool) (res res2 : List PostResult)
    (hfired : (monitor_fire_and_update C pm va lastTs t0 configured res).1 = true)
    (ht : t - t0 < C) :
    (monitor_fire_and_update C pm va lastTs t0 configured res).2.1 = t0 ∧
    (monitor_fire_and_update C pm va lastTs t0 configured res).2.1 =
      (monitor_fire_and_update C pm va lastTs t0 configured res2).2.1 ∧
    (monitor_fire_and_update C pm2 va2 t0 t configured res2).1 = false := by
  have hnt : ¬ (t - t0 ≥ C) := not_le.mpr ht
  by_cases hcond : ((pm || va) && decide (t0 - lastTs ≥ C)) = true
  · refine ⟨?_, ?_, ?_⟩
    · simp [monitor_fire_and_update, hcond]
    · simp [monitor_fire_and_update, hcond]
    · simp [monitor_fire_and_update, hnt]
  · exfalso
    simp [monitor_fire_and_update, hcond] at hfired

/-- Witness for `dispatch_failure_keeps_cooldown`: a fire at 100000 whose
every chat dispatch raised still stores 100000, and the next evaluation
one second later is suppressed. -/
theorem dispatch_failure_keeps_cooldown_witness :
    (monitor_fire_and_update COOLDOWN_SECONDS true false 0 100000 true [PostResult.exn]).2.1
      = 100000 ∧
    (monitor_fire_and_update COOLDOWN_SECONDS true true 100000 100001 true [PostResult.ok]).1
      = false := by
  have h := dispatch_failure_keeps_cooldown COOLDOWN_SECONDS true false true true 0 100000
    100001 true [PostResult.exn] [PostResult.ok]
    (by norm_num [monitor_fire_and_update, COOLDOWN_SECONDS])
    (by norm_num [COOLDOWN_SECONDS])
  exact ⟨h.1, h.2.2⟩

/-- C5: the report contains exactly the candidates with score ≥ the
configured minimum, in descending score order (stable), truncated to at
most the configured top-N; in particular candidates scoring 40, 72, 85
with minimum 70 yield exactly [85, 72]. -/
theorem report_items_spec (cands : List ReportItem) (minScore : ℤ) (maxItems : ℕ) :
    (∀ it ∈ build_report_items cands minScore maxItems, minScore ≤ it.score ∧ it ∈ cands) ∧
    (build_report_items cands minScore maxItems).length ≤ maxItems ∧
    List.Pairwise (fun a b => b.score ≤ a.score) (build_report_items cands minScore maxItems) ∧
    ((cands.filter (fun it => decide (minScore ≤ it.score))).length ≤ maxItems →
      ∀ it ∈ cands, minScore ≤ it.score → it ∈ build_report_items cands minScore maxItems) ∧
    build_report_items [⟨"A", 40⟩, ⟨"B", 72⟩, ⟨"C", 85⟩] 70 10 = [⟨"C", 85⟩, ⟨"B", 72⟩] := by
  refine ⟨?_, ?_, ?_, ?_, ?_⟩
  · intro it hit
    have h1 : it ∈ List.insertionSort scoreGE
        (cands.filter (fun it => decide (minScore ≤ it.score))) :=
      List.take_subset _ _ hit
    have h2 : it ∈ cands.filter (fun it => decide (minScore ≤ it.score)) :=
      (List.perm_insertionSort scoreGE _).mem_iff.mp h1
    have h3 := List.mem_filter.mp h2
    exact ⟨of_decide_eq_true h3.2, h3.1⟩
  · exact List.length_take_le _ _
  · exact List.Pairwise.sublist (List.take_sublist _ _)
      (List.sorted_insertionSort scoreGE (cands.filter (fun it => decide (minScore ≤ it.score))))
  · intro hlen it hit hsc
    have hmemf : it ∈ cands.filter (fun it => decide (minScore ≤ it.score)) :=
      List.mem_filter.mpr ⟨hit, decide_eq_true hsc⟩
    have hmems : it ∈ List.insertionSort scoreGE
        (cands.filter (fun it => decide (minScore ≤ it.score))) :=
      (List.perm_insertionSort scoreGE _).mem_iff.mpr hmemf
    have hlen2 : (List.insertionSort scoreGE
        (cands.filter (fun it => decide (minScore ≤ it.score)))).length ≤ maxItems := by
      rw [(List.perm_insertionSort scoreGE _).length_eq]
      exact hlen
    rw [build_report_items, List.take_of_length_le hlen2]
    exact hmems
  · decide

/-- Witness for `report_items_spec`: the scenario with scores 40, 72, 85
and minimum 70. -/
theorem report_items_spec_witness :
    build_report_items [⟨"A", 40⟩, ⟨"B", 72⟩, ⟨"C", 85⟩] 70 10 = [⟨"C", 85⟩, ⟨"B", 72⟩] :=
  (report_items_spec [⟨"A", 40⟩, ⟨"B", 72⟩, ⟨"C", 85⟩] 70 10).2.2.2.2

/-- C6 counterexample: a non-empty report run dispatches the bulk summary
AND one message per reported symbol (here charts disabled, so a text
caption per item): two messages for a single-item report, not exactly
one. -/
theorem report_dispatch_per_item_cex :
    report_dispatch [⟨"A", 85⟩] false (fun _ => false) =
      [Msg.text "summary", Msg.text "A"] ∧
    (report_dispatch [⟨"A", 85⟩] false (fun _ => false)).length = 2 := by
  constructor <;> rfl

/-- C6 amended: a non-empty report run dispatches exactly one aggregated
summary message first, followed by exactly one message per reported
symbol (a chart photo when charts are enabled and generation succeeds,
otherwise a text caption) — `1 + items` messages in total; an empty run
dispatches nothing. -/
theorem report_dispatch_amended (items : List ReportItem) (enableCharts : Bool)
    (chartOk : ReportItem → Bool) (hne : items ≠ []) :
    (report_dispatch items enableCharts chartOk).length = items.length + 1 ∧
    (report_dispatch items enableCharts chartOk).head? = some (Msg.text "summary") ∧
    report_dispatch [] enableCharts chartOk = [] := by
  refine ⟨?_, ?_, rfl⟩
  · simp [report_dispatch, hne]
  · simp [report_dispatch, hne]

/-- Witness for `report_dispatch_amended`: a two-item report with charts
enabled dispatches three messages, the first being the summary. -/
theorem report_dispatch_amended_witness :
    (report_dispatch [⟨"A", 85⟩, ⟨"B", 72⟩] true (fun _ => true)).length = 3 ∧
    (report_dispatch [⟨"A", 85⟩, ⟨"B", 72⟩] true (fun _ => true)).head? =
      some (Msg.text "summary") := by
  have h := report_dispatch_amended [⟨"A", 85⟩, ⟨"B", 72⟩] true (fun _ => true) (by simp)
  exact ⟨h.1, h.2.1⟩

/-- Appending one element and slicing `[-6:-1]` yields exactly the last 5
elements of the original list: the window strictly precedes the appended
sample. -/
theorem prev_window_slice (vs : List ℚ) (a : ℚ) (h5 : 5 ≤ vs.length) :
    ((vs ++ [a]).drop ((vs ++ [a]).length - 6)).take 5 = vs.drop (vs.length - 5) := by
  have hlen : (vs ++ [a]).length = vs.length + 1 := by simp
  have h6 : (vs ++ [a]).length - 6 = vs.length - 5 := by rw [hlen]; omega
  have hl : (vs.drop (vs.length - 5)).length = 5 := by
    rw [List.length_drop]; omega
  rw [h6, List.drop_append_of_le_length (by omega),
    List.take_append_of_le_length (le_of_eq hl.symm), List.take_of_length_le (le_of_eq hl)]

/-- C7 counterexample: the rolling-volume baseline of `check_changes`
(crypto_alert_1m_1h.py lines 360-369) depends on the newest sample — it
changes when only the newest sample changes, and differs from the mean of
the preceding samples — so it is not computed only from samples strictly
preceding the newest one. -/
theorem volume_baseline_includes_newest_cex :
    (rolling_vol_update [10, 10, 10, 10, 10] 1500).2.1 ≠
      (rolling_vol_update [10, 10, 10, 10, 10] 10).2.1 ∧
    (rolling_vol_update [10, 10, 10, 10, 10] 1500).2.1 ≠ mean [10, 10, 10, 10, 10] := by
  have e1 : (rolling_vol_update [10, 10, 10, 10, 10] 1500).2.1 = 775 / 3 := by
    simp only [rolling_vol_update]
    norm_num [mean] <;> simp
  have e2 : (rolling_vol_update [10, 10, 10, 10, 10] 10).2.1 = 10 := by
    simp only [rolling_vol_update]
    norm_num [mean] <;> simp
  have e3 : mean [(10 : ℚ), 10, 10, 10, 10] = 10 := by norm_num [mean]
  constructor
  · rw [e1, e2]; norm_num
  · rw [e1, e3]; norm_num

/-- C7 amended: `detect_volume_spike` and the ratio half of
`estimate_volatility_tier` (monitor_bybit_flask.py) compute the baseline
as the mean of the 5 samples strictly preceding the newest and are
neutral — `(False, 1.0)` resp. 1.0 — on insufficient history or a
non-positive (resp. zero) baseline; the rolling-volume candidate
pre-filter of `check_changes` (crypto_alert_1m_1h.py), however, computes
its baseline as the mean of the rolling window including the newest
sample. -/
theorem volume_baseline_amended (vs : List ℚ) (a mult : ℚ) (h5 : 5 ≤ vs.length)
    (v2 : List ℚ) (h2 : v2.length < 6) (rolling : List ℚ) (tv : ℚ)
    (hr : rolling.length < 100) :
    detect_volume_spike v2 mult = (false, 1) ∧
    detect_volume_spike (vs ++ [a]) mult =
      (if mean (vs.drop (vs.length - 5)) ≤ 0 then (false, 1)
       else (decide (a / mean (vs.drop (vs.length - 5)) ≥ mult),
             a / mean (vs.drop (vs.length - 5)))) ∧
    estimate_vol_ratio (vs ++ [a]) =
      (if mean (vs.drop (vs.length - 5)) ≠ 0 then a / mean (vs.drop (vs.length - 5)) else 1) ∧
    (rolling_vol_update rolling tv).2.1 = mean (rolling ++ [tv]) := by
  refine ⟨?_, ?_, ?_, ?_⟩
  · exact if_pos (Or.inr h2)
  · have hg : ¬ (vs ++ [a] = [] ∨ (vs ++ [a]).length < 6) := by
      push_neg
      refine ⟨by simp, ?_⟩
      simp only [List.length_append, List.length_singleton]
      omega
    simp only [detect_volume_spike]
    rw [if_neg hg, prev_window_slice vs a h5, List.getLastD_concat]
  · have hg : vs ++ [a] ≠ [] ∧ 6 ≤ (vs ++ [a]).length := by
      refine ⟨by simp, ?_⟩
      simp only [List.length_append, List.length_singleton]
      omega
    simp only [estimate_vol_ratio]
    rw [if_pos hg, prev_window_slice vs a h5, List.getLastD_concat]
  · have hnot : ¬ (100 < rolling.length + 1) := by omega
    simp [rolling_vol_update, hnot]

/-- Witness for `volume_baseline_amended`: a 2-sample history is neutral,
and the rolling pre-filter baseline over window [10] with new sample 20
is the mean of [10, 20]. -/
theorem volume_baseline_amended_witness :
    detect_volume_spike [(1 : ℚ), 2] 100 = (false, 1) ∧
    (rolling_vol_update [10] 20).2.1 = mean [10, 20] := by
  have h := volume_baseline_amended [10, 10, 10, 10, 10] 1500 100 (by norm_num)
    [(1 : ℚ), 2] (by norm_num) [10] 20 (by norm_num)
  exact ⟨h.1, h.2.2.2⟩

end CryptoAlert
